import Mathlib

/-!
Shallow embedding of the `stdin-nonblocking` crate (src/src/lib.rs) and
verification of its specified properties.

The crate exposes two entry points:

* `spawn_stdin_stream() -> Receiver<String>` — checks `io::stdin().is_terminal()`;
  if interactive it returns the receiver at once (the sender is dropped, so the
  channel is empty and closed) without any read.  Otherwise it spawns a worker
  that loops on `read_line`: `Ok(0)` breaks (EOF), `Ok(_)` sends
  `buffer.trim().to_string()`, `Err(_)` breaks.

* `get_stdin_or_default(default: Option<&[u8]>) -> Vec<u8>` — if interactive,
  returns `default.unwrap_or(b"").to_vec()`.  Otherwise it calls
  `read_to_end` (with `.expect`, which panics on a read error) and returns the
  buffer if non-empty, else `default.unwrap_or(b"").to_vec()`.

Bytes are modelled as `Nat`, text as `List Char`.  The input source is modelled
by the sequence of outcomes its read operations produce; each model also counts
the number of read operations attempted against the source, so that the
"zero reads when interactive" property is expressible.
-/

namespace StdinNonblocking

/-- Rust `char::is_whitespace`: the Unicode `White_Space` property
(U+0009..U+000D, U+0020, U+0085, U+00A0, U+1680, U+2000..U+200A, U+2028,
U+2029, U+202F, U+205F, U+3000). -/
def rustIsWhitespace (c : Char) : Bool :=
  let n := c.toNat
  (9 ≤ n && n ≤ 13) || n == 0x20 || n == 0x85 || n == 0xA0 || n == 0x1680 ||
  (0x2000 ≤ n && n ≤ 0x200A) || n == 0x2028 || n == 0x2029 || n == 0x202F ||
  n == 0x205F || n == 0x3000

/-- Rust `str::trim_end`: remove trailing whitespace. -/
def rustTrimEnd (s : List Char) : List Char :=
  (s.reverse.dropWhile rustIsWhitespace).reverse

/-- Rust `str::trim`: remove leading and trailing whitespace. -/
def rustTrim (s : List Char) : List Char :=
  (rustTrimEnd s).dropWhile rustIsWhitespace

/-- One outcome of a `read_line` call on the input source: a line (the raw
buffer contents, line terminator included, exactly as `read_line` appends
them) or an I/O error.  The list of events ends at end-of-stream, where
`read_line` returns `Ok(0)`. -/
inductive LineEvent where
  | line (s : List Char)
  | ioError
  deriving Repr, DecidableEq

/-- The outcome of the single `read_to_end` call in `get_stdin_or_default`:
either the entire contents of the source up to end-of-stream, or an I/O
error. -/
inductive StdinRead where
  | ok (bytes : List Nat)
  | readErr
  deriving Repr, DecidableEq

/-- Whether a Rust call returned a value or panicked. -/
inductive RunResult (α : Type) where
  | returns (val : α)
  | panics
  deriving Repr, DecidableEq

/-- The observable behaviour of a `Receiver<String>` returned by
`spawn_stdin_stream`, together with the number of read operations the
library attempted against the input source: the units that were sent over
the channel (in send order — the mpsc channel is FIFO and delivers each
sent value exactly once), and whether the channel ends up closed (the
sender dropped). -/
structure StreamResult where
  units : List (List Char)
  closed : Bool
  reads : Nat
  deriving Repr, DecidableEq

/-- The worker loop of `spawn_stdin_stream` (src/src/lib.rs lines 52-68),
run to completion with the receiver kept alive: each iteration performs one
`read_line`; `Ok(0)` (the empty event list) breaks, a line is sent as
`buffer.trim().to_string()`, an error breaks.  Returns the sent units and
the number of read operations performed. -/
def spawn_worker : List LineEvent → List (List Char) × Nat
  | [] => ([], 1)
  | LineEvent.line s :: rest =>
      let r := spawn_worker rest
      (rustTrim s :: r.1, r.2 + 1)
  | LineEvent.ioError :: _ => ([], 1)

/-- `spawn_stdin_stream` (src/src/lib.rs lines 43-71).  `interactive` is the
value of `io::stdin().is_terminal()`; `events` the read outcomes the source
would deliver.  When interactive, the function returns before spawning the
worker, the sender is dropped, and no read is attempted.  Otherwise the
worker runs; when it terminates the sender is dropped, so the channel is
closed after the sent units. -/
def spawn_stdin_stream (interactive : Bool) (events : List LineEvent) : StreamResult :=
  if interactive then
    ⟨[], true, 0⟩
  else
    ⟨(spawn_worker events).1, true, (spawn_worker events).2⟩

/-- `get_stdin_or_default` (src/src/lib.rs lines 107-124).  `interactive` is
`io::stdin().is_terminal()`; `r` the outcome of `read_to_end`.  Returns the
Rust return value (or `RunResult.panics` for the `.expect` panic on a read
error) paired with the number of read operations attempted against the
source. -/
def get_stdin_or_default (interactive : Bool) (r : StdinRead) (default : Option (List Nat)) :
    RunResult (List Nat) × Nat :=
  if interactive then
    (RunResult.returns (default.getD []), 0)
  else
    match r with
    | StdinRead.readErr => (RunResult.panics, 1)
    | StdinRead.ok buffer =>
        (RunResult.returns (if buffer ≠ [] then buffer else default.getD []), 1)

/-- Modelled from the spec (section 4.3, bounded aggregate read): drain the
units queued at the end of the fixed delay and concatenate them (binary
mode: chunks in arrival order); if the aggregate is empty return the
fallback. -/
def read_or_default_drain (queued : List (List Nat)) (default : Option (List Nat)) : List Nat :=
  let agg := queued.foldr (fun a b => a ++ b) []
  if agg = [] then default.getD [] else agg

/-- Modelled from the spec (section 4.2, line mode): strip the trailing line
terminator (a final newline, or carriage-return + newline) and nothing
else. -/
def stripLineTerminator : List Char → List Char
  | [] => []
  | ['\n'] => []
  | ['\r', '\n'] => []
  | c :: rest => c :: stripLineTerminator rest

/-- An ASCII whitespace byte as it appears in the claims: space or newline. -/
def isWsByte (b : Nat) : Bool :=
  b == 32 || b == 10

end StdinNonblocking

namespace StdinNonblocking

/-! ### Helper lemmas -/

theorem dropWhile_append_all {p : Char → Bool} :
    ∀ (l1 l2 : List Char), (∀ a ∈ l1, p a = true) →
      List.dropWhile p (l1 ++ l2) = List.dropWhile p l2
  | [], l2, _ => rfl
  | a :: l1, l2, h => by
      have ha : p a = true := h a (List.mem_cons_self a l1)
      simp only [List.cons_append, List.dropWhile_cons, ha, if_true]
      exact dropWhile_append_all l1 l2 (fun b hb => h b (List.mem_cons_of_mem a hb))

theorem rustTrimEnd_append_ws (s t : List Char)
    (ht : ∀ a ∈ t, rustIsWhitespace a = true) :
    rustTrimEnd (s ++ t) = rustTrimEnd s := by
  unfold rustTrimEnd
  rw [List.reverse_append, dropWhile_append_all t.reverse s.reverse
    (fun a ha => ht a (List.mem_reverse.mp ha))]

theorem rustTrim_append_ws (s t : List Char)
    (ht : ∀ a ∈ t, rustIsWhitespace a = true) :
    rustTrim (s ++ t) = rustTrim s := by
  unfold rustTrim
  rw [rustTrimEnd_append_ws s t ht]

theorem stripLineTerminator_suffix :
    ∀ s : List Char, ∃ t, s = stripLineTerminator s ++ t ∧
      ∀ a ∈ t, rustIsWhitespace a = true := by
  intro s
  induction s using stripLineTerminator.induct with
  | case1 => exact ⟨[], rfl, by simp⟩
  | case2 => exact ⟨['\n'], rfl, by decide⟩
  | case3 => exact ⟨['\r', '\n'], rfl, by decide⟩
  | case4 c rest h1 h2 ih =>
      obtain ⟨t, ht, hw⟩ := ih
      refine ⟨t, ?_, hw⟩
      rw [stripLineTerminator.eq_4 c rest h1 h2, List.cons_append, ← ht]


theorem rustTrim_stripLineTerminator (s : List Char) :
    rustTrim s = rustTrim (stripLineTerminator s) := by
  obtain ⟨t, ht, hw⟩ := stripLineTerminator_suffix s
  calc rustTrim s = rustTrim (stripLineTerminator s ++ t) := by rw [← ht]
    _ = rustTrim (stripLineTerminator s) := rustTrim_append_ws _ t hw

theorem spawn_worker_lines (lines : List (List Char)) :
    spawn_worker (lines.map LineEvent.line) = (lines.map rustTrim, lines.length + 1) := by
  induction lines with
  | nil => rfl
  | cons s rest ih => simp [spawn_worker, ih]

/-! ### The claims -/

/-- C1: for both entry points, when the input source is classified as an
interactive terminal, the call returns the fallback (for
`get_stdin_or_default`) or an already-closed empty channel (for
`spawn_stdin_stream`) and attempts zero read operations against the
source, whatever the source would have delivered. -/
theorem interactive_short_circuit (events : List LineEvent) (r : StdinRead)
    (d : Option (List Nat)) :
    spawn_stdin_stream true events = ⟨[], true, 0⟩ ∧
    get_stdin_or_default true r d = (RunResult.returns (d.getD []), 0) :=
  ⟨rfl, rfl⟩

/-- C2 counterexample: the claim says `get_stdin_or_default` drains only the
units already queued after a short delay and does not wait for
end-of-stream.  Take a source whose queued content at any intermediate
moment is the chunk `[1]`, with byte `2` still to arrive before
end-of-stream: the code, which calls `read_to_end`, returns `[1, 2]`, not
the drained aggregate `[1]` the claim predicts. -/
theorem bounded_wait_drain_counterexample :
    (get_stdin_or_default false (StdinRead.ok ([1] ++ [2])) none).1 ≠
      RunResult.returns (read_or_default_drain [[1]] none) := by
  decide

/-- C2 amended: `get_stdin_or_default` does not sleep a fixed delay and
drain a queue; it performs a single blocking `read_to_end`, waiting for
end-of-stream, and then behaves like draining one whole-buffer unit
holding all input bytes: it returns every byte read, or the fallback if
zero bytes arrived. -/
theorem get_stdin_reads_to_end (bytes : List Nat) (d : Option (List Nat)) :
    (get_stdin_or_default false (StdinRead.ok bytes) d).1 =
      RunResult.returns (read_or_default_drain [bytes] d) := by
  by_cases h : bytes = [] <;>
    simp [get_stdin_or_default, read_or_default_drain, h]

/-- C3 counterexample: the claim says a whitespace-only input (here a space
and a newline, bytes `[32, 10]`) triggers the fallback `[102]`; the code
only tests `buffer.is_empty()`, so it returns the whitespace bytes
themselves. -/
theorem whitespace_fallback_counterexample :
    (get_stdin_or_default false (StdinRead.ok [32, 10]) (some [102])).1 ≠
      RunResult.returns [102] := by
  decide

/-- C3 amended: under the bounded pattern a whitespace-only non-empty input
(spaces/newlines) is returned verbatim, not replaced by the fallback; the
fallback is returned only for a truly empty (zero-byte) input. -/
theorem whitespace_input_returned_verbatim (bytes : List Nat) (d : List Nat)
    (hne : bytes ≠ []) (hws : ∀ b ∈ bytes, isWsByte b = true) :
    (get_stdin_or_default false (StdinRead.ok bytes) (some d)).1 =
      RunResult.returns bytes := by
  simp [get_stdin_or_default, hne]

/-- C3 amended, witness at the concrete whitespace input `[32, 10]` with
fallback `[102]`. -/
theorem whitespace_input_returned_verbatim_witness :
    (get_stdin_or_default false (StdinRead.ok [32, 10]) (some [102])).1 =
      RunResult.returns [32, 10] :=
  whitespace_input_returned_verbatim [32, 10] [102] (by decide) (by decide)

/-- C4: the streaming worker indeed treats a read error as end-of-stream
(the stream ends early, here after the single unit from the line before
the error), but `get_stdin_or_default` calls
`read_to_end(...).expect("Failed to read stdin")`, which panics on a read
error instead of returning the fallback — a read error IS fatal to the
host process on that path. -/
theorem read_error_panics :
    (get_stdin_or_default false StdinRead.readErr (some [1])).1 = RunResult.panics ∧
    (spawn_stdin_stream false
      [LineEvent.line ['a', '\n'], LineEvent.ioError, LineEvent.line ['b', '\n']]).units
      = [['a']] :=
  ⟨rfl, rfl⟩

/-- C5 counterexample: the claim says that, with no fallback supplied, "no
input was available" is distinguishable from "input was genuinely empty"
through an optional return type.  The code returns a plain `Vec<u8>`: the
interactive case (no read at all) and the non-interactive zero-byte case
both return the empty byte vector, so they are indistinguishable, and both
are ordinary return values, not an optional absence. -/
theorem no_input_vs_empty_indistinguishable :
    (get_stdin_or_default true (StdinRead.ok []) none).1 =
      (get_stdin_or_default false (StdinRead.ok []) none).1 ∧
    (get_stdin_or_default true (StdinRead.ok []) none).1 = RunResult.returns [] := by
  decide

/-- C5 amended: `get_stdin_or_default` returns a plain byte vector, not an
optional value; when no fallback is supplied, both "no input available"
(interactive source, regardless of its contents) and "genuinely empty
input" (non-interactive, zero bytes) return the empty byte vector, so the
two cases cannot be distinguished by the caller. -/
theorem empty_default_sentinel (r : StdinRead) :
    (get_stdin_or_default true r none).1 = RunResult.returns [] ∧
    (get_stdin_or_default false (StdinRead.ok []) none).1 = RunResult.returns [] :=
  ⟨rfl, rfl⟩

/-- C6 counterexample: for the input line `" a\n"` the claim says the
emitted unit is `" a"` (only the trailing terminator stripped, leading
whitespace kept); the worker sends `buffer.trim().to_string()`, which also
strips the leading space, emitting `"a"`. -/
theorem line_trim_counterexample :
    (spawn_stdin_stream false [LineEvent.line [' ', 'a', '\n']]).units ≠
      [stripLineTerminator [' ', 'a', '\n']] := by
  decide

/-- C6 amended: the unit emitted for each line is the line with leading and
trailing whitespace removed (Rust `str::trim`), not merely the terminator;
interior whitespace is preserved.  Only for lines whose terminator-stripped
content carries no leading or trailing whitespace does the emitted unit
equal the line with just the terminator stripped, as the claim states. -/
theorem line_mode_trims_whitespace (lines : List (List Char))
    (h : ∀ s ∈ lines, rustTrim (stripLineTerminator s) = stripLineTerminator s) :
    (spawn_stdin_stream false (lines.map LineEvent.line)).units =
      lines.map stripLineTerminator := by
  simp only [spawn_stdin_stream, if_neg Bool.false_ne_true, spawn_worker_lines]
  exact List.map_congr_left fun s hs =>
    (rustTrim_stripLineTerminator s).trans (h s hs)

/-- C6 amended, witness on the concrete lines `"hi\n"` and `"x"` (no
leading/trailing whitespace in their content): the emitted units are
exactly the terminator-stripped lines. -/
theorem line_mode_trims_whitespace_witness :
    (spawn_stdin_stream false
      [LineEvent.line ['h', 'i', '\n'], LineEvent.line ['x']]).units =
      [['h', 'i'], ['x']] := by
  have h := line_mode_trims_whitespace [['h', 'i', '\n'], ['x']] (by decide)
  simpa using h

/-- C7: for a non-interactive source delivering a finite sequence of lines,
the stream delivers exactly one unit per input line (the trimmed line), in
the exact order the lines appear, and each line gives rise to exactly one
delivery — the units list is precisely the map of the worker over the
lines, so nothing is delivered twice. -/
theorem order_preservation (lines : List (List Char)) :
    (spawn_stdin_stream false (lines.map LineEvent.line)).units = lines.map rustTrim ∧
    (spawn_stdin_stream false (lines.map LineEvent.line)).units.length = lines.length := by
  constructor
  · simp [spawn_stdin_stream, spawn_worker_lines]
  · simp [spawn_stdin_stream, spawn_worker_lines]

/-- C8: against a non-interactive source that is empty (immediate
end-of-stream, zero bytes), `get_stdin_or_default` returns the supplied
default `d`, for every `d`. -/
theorem fallback_idempotence (d : List Nat) :
    (get_stdin_or_default false (StdinRead.ok []) (some d)).1 = RunResult.returns d := by
  simp [get_stdin_or_default]

/-- C9: for every non-empty byte sequence from a non-interactive source,
`get_stdin_or_default` returns exactly those bytes — arbitrary byte values
(no UTF-8 validation), nothing lost or altered — whatever the default. -/
theorem binary_fidelity (bytes : List Nat) (d : Option (List Nat))
    (h : bytes ≠ []) :
    (get_stdin_or_default false (StdinRead.ok bytes) d).1 = RunResult.returns bytes := by
  simp [get_stdin_or_default, h]

/-- C9 witness at the non-UTF-8 byte sequence `DE AD BE EF`
(`[222, 173, 190, 239]`) with a fallback supplied. -/
theorem binary_fidelity_witness :
    (get_stdin_or_default false (StdinRead.ok [222, 173, 190, 239]) (some [1])).1 =
      RunResult.returns [222, 173, 190, 239] :=
  binary_fidelity [222, 173, 190, 239] (some [1]) (by decide)

/-- C10: for a non-interactive source delivering a non-empty byte sequence,
the result of `get_stdin_or_default` is independent of the supplied
default: any two defaults give the identical outcome. -/
theorem default_noninterference (bytes : List Nat) (d1 d2 : Option (List Nat))
    (h : bytes ≠ []) :
    get_stdin_or_default false (StdinRead.ok bytes) d1 =
      get_stdin_or_default false (StdinRead.ok bytes) d2 := by
  simp [get_stdin_or_default, h]

/-- C10 witness: on input bytes `[5, 6]`, defaults `some [1]` and `none`
give the identical result. -/
theorem default_noninterference_witness :
    get_stdin_or_default false (StdinRead.ok [5, 6]) (some [1]) =
      get_stdin_or_default false (StdinRead.ok [5, 6]) none :=
  default_noninterference [5, 6] (some [1]) none (by decide)

end StdinNonblocking
